import Mathlib

set_option maxRecDepth 100000

/-!
Verification of the frequenz-resampling streaming downsampling engine.

The repository ships the engine behind a host-language binding
(src/frequenz/resampling/__init__.py re-exports Resampler and
ResamplingFunction from a compiled backend) together with a behavioural
test-suite (src/tests/test_resampler.py).  The engine itself is not part of
the source tree, so every engine definition below is modelled from the
specification (spec.md) and cross-checked against the concrete scenarios of
the test-suite.

Design of the embedding: instants and values are rationals (ℚ); a possibly
missing value is an Option ℚ; window indices are integers; the buffer of
open accumulators is an association list ordered by strictly increasing
window index.
-/

/-- Modelled from the spec: the closed, ordered enumeration of aggregation
functions, §3: Average=0, Sum=1, Max=2, Min=3, Last=4, Count=5. -/
inductive ResamplingFunction
  | Average
  | Sum
  | Max
  | Min
  | Last
  | Count
deriving DecidableEq

/-- Modelled from the spec: the ordinal of an enumeration member. -/
def ResamplingFunction.value : ResamplingFunction → Nat
  | .Average => 0
  | .Sum => 1
  | .Max => 2
  | .Min => 3
  | .Last => 4
  | .Count => 5

/-- Modelled from the spec: the declared name of an enumeration member. -/
def ResamplingFunction.name : ResamplingFunction → String
  | .Average => "Average"
  | .Sum => "Sum"
  | .Max => "Max"
  | .Min => "Min"
  | .Last => "Last"
  | .Count => "Count"

/-- Modelled from the spec: all members in declared order. -/
def ResamplingFunction.all : List ResamplingFunction :=
  [.Average, .Sum, .Max, .Min, .Last, .Count]

/-- Modelled from the spec: listing all ordinals in declared order. -/
def ResamplingFunction.values : List Nat :=
  ResamplingFunction.all.map ResamplingFunction.value

/-- Modelled from the spec: listing the (name, ordinal) pairs in declared
order. -/
def ResamplingFunction.members : List (String × Nat) :=
  ResamplingFunction.all.map (fun f => (f.name, f.value))

/-- Modelled from the spec: construction from an ordinal, failing with a
value error for out-of-range ordinals (§3, §7). -/
def ResamplingFunction.fromOrdinal (n : Nat) : Except String ResamplingFunction :=
  if n = 0 then .ok .Average
  else if n = 1 then .ok .Sum
  else if n = 2 then .ok .Max
  else if n = 3 then .ok .Min
  else if n = 4 then .ok .Last
  else if n = 5 then .ok .Count
  else .error "out of range ordinal"

/-- Modelled from the spec: the edge policy choosing which window boundary a
sample on a boundary belongs to, and which edge labels the window (§4.1). -/
inductive EdgePolicy
  | FirstTimestamp
  | LastTimestamp
deriving DecidableEq

/-- Modelled from the spec: the fixed-size running-statistics record of one
open window (§3, §4.2).  min, max, last_value and last_value_timestamp are
absent until the first present sample arrives. -/
structure WindowAccumulator where
  count_total : Nat
  count_present : Nat
  sum : ℚ
  min : Option ℚ
  max : Option ℚ
  last_value : Option ℚ
  last_value_timestamp : Option ℚ
deriving DecidableEq

/-- Modelled from the spec: the accumulator a window starts from when its
first sample arrives (§3 lifecycle). -/
def WindowAccumulator.init : WindowAccumulator :=
  { count_total := 0, count_present := 0, sum := 0,
    min := none, max := none, last_value := none, last_value_timestamp := none }

/-- Modelled from the spec: the accumulator update (§4.2).  A Missing value
only bumps count_total; a present value updates every running statistic,
with last_value tracking the present sample of greatest timestamp. -/
def WindowAccumulator.update (acc : WindowAccumulator) (timestamp : ℚ)
    (value : Option ℚ) : WindowAccumulator :=
  match value with
  | none => { acc with count_total := acc.count_total + 1 }
  | some v =>
    { acc with
      count_total := acc.count_total + 1
      count_present := acc.count_present + 1
      sum := acc.sum + v
      min := some (match acc.min with | none => v | some m => Min.min m v)
      max := some (match acc.max with | none => v | some m => Max.max m v)
      last_value :=
        match acc.last_value_timestamp with
        | none => some v
        | some ts => if ts ≤ timestamp then some v else acc.last_value
      last_value_timestamp :=
        match acc.last_value_timestamp with
        | none => some timestamp
        | some ts => if ts ≤ timestamp then some timestamp else acc.last_value_timestamp }

/-- Modelled from the spec: the aggregator (§4.3).  With zero present
samples Average, Sum, Max, Min and Last yield Missing; Count is always a
well-defined number. -/
def ResamplingFunction.compute (f : ResamplingFunction)
    (acc : WindowAccumulator) : Option ℚ :=
  match f with
  | .Count => some (acc.count_present : ℚ)
  | .Average =>
    if acc.count_present = 0 then none
    else some (acc.sum / (acc.count_present : ℚ))
  | .Sum => if acc.count_present = 0 then none else some acc.sum
  | .Max => if acc.count_present = 0 then none else acc.max
  | .Min => if acc.count_present = 0 then none else acc.min
  | .Last => if acc.count_present = 0 then none else acc.last_value

/-- Floor of a rational as an integer (the denominator is positive, so
Euclidean division of the numerator yields the floor). -/
def ratFloor (q : ℚ) : Int := q.num.ediv (q.den : Int)

/-- Ceiling of a rational as an integer. -/
def ratCeil (q : ℚ) : Int := -ratFloor (-q)

/-- Modelled from the spec: the initial emission cursor.  The spec (§3)
defines the cursor as the smallest window index not yet emitted but leaves
its initial value implicit; the behavioural scenarios (§8, mirrored by
src/tests/test_resampler.py) fix it as the index of the earliest window
lying entirely at or after the anchor: index 0 under the first-timestamp
policy (window [anchor, anchor+period)) and index 1 under the
last-timestamp policy (window (anchor, anchor+period]). -/
def EdgePolicy.initialCursor : EdgePolicy → Int
  | .FirstTimestamp => 0
  | .LastTimestamp => 1

/-- Modelled from the spec: the driver state (§3): configuration, the
ordered buffer of open accumulators keyed by window index, and the emission
cursor. -/
structure Resampler where
  anchor : ℚ
  period : ℚ
  edge_policy : EdgePolicy
  retention_depth : Nat
  function : ResamplingFunction
  buffer : List (Int × WindowAccumulator)
  cursor : Int
deriving DecidableEq

/-- Modelled from the spec: the WindowIndexer (§4.1): first-timestamp maps
t to floor((t − anchor)/period), last-timestamp to ceil((t − anchor)/period). -/
def Resampler.windowIndex (r : Resampler) (t : ℚ) : Int :=
  match r.edge_policy with
  | .FirstTimestamp => ratFloor ((t - r.anchor) / r.period)
  | .LastTimestamp => ratCeil ((t - r.anchor) / r.period)

/-- Modelled from the spec: the label of window k is anchor + k·period
under either policy (§4.1). -/
def Resampler.label (r : Resampler) (k : Int) : ℚ :=
  r.anchor + (k : ℚ) * r.period

/-- Modelled from the spec: the greatest window index whose window is fully
closed as of the given instant (§4.4 resample step 1): its right-most
boundary (anchor + (k+1)·period for first-timestamp, anchor + k·period for
last-timestamp) is ≤ as_of. -/
def Resampler.limitIndex (r : Resampler) (as_of : ℚ) : Int :=
  match r.edge_policy with
  | .FirstTimestamp => ratFloor ((as_of - r.anchor) / r.period) - 1
  | .LastTimestamp => ratFloor ((as_of - r.anchor) / r.period)

/-- Look up the accumulator of a window index in the buffer. -/
def lookupAcc : List (Int × WindowAccumulator) → Int → Option WindowAccumulator
  | [], _ => none
  | (j, a) :: t, k => if k = j then some a else lookupAcc t k

/-- Modelled from the spec: get-or-create the accumulator of window k and
update it (§4.4 push step 4), keeping the buffer ordered by index. -/
def updateBuffer : List (Int × WindowAccumulator) → Int → ℚ → Option ℚ →
    List (Int × WindowAccumulator)
  | [], k, t, v => [(k, WindowAccumulator.init.update t v)]
  | (j, a) :: rest, k, t, v =>
    if k < j then (k, WindowAccumulator.init.update t v) :: (j, a) :: rest
    else if k = j then (j, a.update t v) :: rest
    else (j, a) :: updateBuffer rest k t v

/-- The greatest window index present in the buffer (with a default for the
empty buffer). -/
def maxKey (l : List (Int × WindowAccumulator)) (dflt : Int) : Int :=
  l.foldr (fun e m => Max.max e.1 m) dflt

/-- Modelled from the spec: forced aging-out (§4.4 push step 5, §3
lifecycle): when more than retention_depth accumulator slots are open,
the ones more than retention_depth windows behind the highest buffered
index are evicted without being emitted. -/
def evictOld (d : Nat) (buf : List (Int × WindowAccumulator)) :
    List (Int × WindowAccumulator) :=
  if d < buf.length then
    buf.filter (fun e => maxKey buf 0 - (d : Int) ≤ e.1)
  else buf

/-- Modelled from the spec: push_sample (§4.4): reject timestamps before
the anchor, drop samples addressed to already-emitted windows, otherwise
route to the window accumulator and age out excess accumulators.  Total:
it never fails (§7). -/
def Resampler.push_sample (r : Resampler) (timestamp : ℚ)
    (value : Option ℚ) : Resampler :=
  if timestamp < r.anchor then r
  else if r.windowIndex timestamp < r.cursor then r
  else
    { r with
      buffer := evictOld r.retention_depth
        (updateBuffer r.buffer (r.windowIndex timestamp) timestamp value) }

/-- Modelled from the spec: the window indices drained by resample (§4.4
resample step 2): every index from the cursor up to the limit, in
increasing order. -/
def Resampler.drained (r : Resampler) (as_of : ℚ) : List Int :=
  if r.limitIndex as_of < r.cursor then []
  else (List.range (r.limitIndex as_of + 1 - r.cursor).toNat).map
    (fun (i : Nat) => r.cursor + (i : Int))

/-- Modelled from the spec: the aggregate emitted for a window index (§4.4
resample step 2): an absent accumulator aggregates as Missing; otherwise
the configured function is applied to the accumulator. -/
def Resampler.aggregateAt (r : Resampler) (k : Int) : Option ℚ :=
  match lookupAcc r.buffer k with
  | none => none
  | some acc => r.function.compute acc

/-- Modelled from the spec: resample (§4.4): emit one (label, aggregate)
point per window closed as of as_of, evict the emitted accumulators and
advance the cursor past the limit.  Total: it never fails (§7). -/
def Resampler.resample (r : Resampler) (as_of : ℚ) :
    List (ℚ × Option ℚ) × Resampler :=
  let L := r.limitIndex as_of
  let out := (r.drained as_of).map (fun k => (r.label k, r.aggregateAt k))
  if L < r.cursor then (out, r)
  else (out, { r with cursor := L + 1,
                      buffer := r.buffer.filter (fun e => L < e.1) })

/-- Modelled from the spec: construction of the engine (§6). -/
def Resampler.new (period : ℚ) (function : ResamplingFunction)
    (retention_depth : Nat) (anchor : ℚ) (edge_policy : EdgePolicy) : Resampler :=
  { anchor := anchor, period := period, edge_policy := edge_policy,
    retention_depth := retention_depth, function := function,
    buffer := [], cursor := edge_policy.initialCursor }

/-- Modelled from the spec and src/tests/test_resampler.py: the binding
constructor surface.  The tests construct the engine as
Resampler(period, function, max_age_in_intervals=…, start=…,
first_timestamp=…): max_age_in_intervals is the retention depth, start is
the anchor, and the boolean first_timestamp selects the edge policy
(False = last-timestamp, True = first-timestamp). -/
def Resampler.bindingNew (period : ℚ) (function : ResamplingFunction)
    (max_age_in_intervals : Nat) (start : ℚ) (first_timestamp : Bool) : Resampler :=
  Resampler.new period function max_age_in_intervals start
    (if first_timestamp then EdgePolicy.FirstTimestamp else EdgePolicy.LastTimestamp)

/-- An externally observable operation on a resampler instance. -/
inductive Op
  | push (timestamp : ℚ) (value : Option ℚ)
  | resample (as_of : ℚ)

/-- Apply one operation to the state. -/
def Resampler.applyOp (r : Resampler) : Op → Resampler
  | .push t v => r.push_sample t v
  | .resample a => (r.resample a).2

/-- Apply a sequence of operations to the state. -/
def Resampler.applyOps (r : Resampler) (ops : List Op) : Resampler :=
  ops.foldl Resampler.applyOp r

/-- Push a sequence of (timestamp, value) samples. -/
def Resampler.applyPushes (r : Resampler) (l : List (ℚ × Option ℚ)) : Resampler :=
  l.foldl (fun s e => s.push_sample e.1 e.2) r

/-- The samples of Scenario A (§8, src/tests/test_resampler.py lines
11-158): values 1..10 pushed at timestamps 1s..10s. -/
def scenarioASamples : List (ℚ × Option ℚ) :=
  (List.range 10).map (fun i => (((i : ℚ) + 1), some ((i : ℚ) + 1)))

/-- Scenario A state after all pushes: anchor = epoch (0), period = 5,
last-timestamp policy, retention depth 1. -/
def scenarioAState (f : ResamplingFunction) : Resampler :=
  (Resampler.bindingNew 5 f 1 0 false).applyPushes scenarioASamples

/-- Scenario A output: resample(10) on the scenario A state. -/
def scenarioARun (f : ResamplingFunction) : List (ℚ × Option ℚ) :=
  ((scenarioAState f).resample 10).1

/-- The samples of Scenario B (§8, src/tests/test_resampler.py
test_resampling_none): ten Missing values pushed at timestamps 1s..10s. -/
def scenarioNoneSamples : List (ℚ × Option ℚ) :=
  (List.range 10).map (fun i => (((i : ℚ) + 1), none))

/-- The resampler of Scenario B after all pushes. -/
def scenarioNoneState : Resampler :=
  (Resampler.bindingNew 5 .Average 1 0 false).applyPushes scenarioNoneSamples

/-- The samples of Scenario C under the first-timestamp policy (§8,
src/tests/test_resampler.py test_resampler_first_timestamp): values 1..20
at timestamps 0s, 0.5s, …, 9.5s. -/
def scenarioCFirstSamples : List (ℚ × Option ℚ) :=
  (List.range 20).map (fun i => ((i : ℚ) / 2, some ((i : ℚ) + 1)))

/-- The samples of Scenario C under the last-timestamp policy (§8,
src/tests/test_resampler.py test_resampler_last_timestamp): values 1..20
at timestamps 0.5s, 1s, …, 10s. -/
def scenarioCLastSamples : List (ℚ × Option ℚ) :=
  (List.range 20).map (fun i => (((i : ℚ) + 1) / 2, some ((i : ℚ) + 1)))

/-- The engine state reached from a fresh instance by a sequence of pushes. -/
def resamplerAfter (p : ℚ) (f : ResamplingFunction) (d : Nat) (a : ℚ)
    (e : EdgePolicy) (samples : List (ℚ × Option ℚ)) : Resampler :=
  (Resampler.new p f d a e).applyPushes samples

/-- The accumulators buffered after the first six pushes of Scenario A:
window 1 (samples at 1s..5s) and window 2 (sample at 6s) are open at once
even though the retention depth is 1. -/
def scenarioAPrefix6 : Resampler :=
  (Resampler.bindingNew 5 .Average 1 0 false).applyPushes
    ((List.range 6).map (fun i => (((i : ℚ) + 1), some ((i : ℚ) + 1))))

/-- Decidable round-trip check of one enum ordinal: constructing from the
ordinal succeeds, reading back the ordinal reproduces it, and the (name,
ordinal) pair sits at that position of the declared member table. -/
def roundTripOk (m : Nat) : Bool :=
  match ResamplingFunction.fromOrdinal m with
  | .ok f => f.value == m && (ResamplingFunction.members.get? m == some (f.name, f.value))
  | .error _ => false

theorem push_eq_or (r : Resampler) (t : ℚ) (v : Option ℚ) :
    r.push_sample t v = r ∨
    r.push_sample t v =
      { r with
          buffer := evictOld r.retention_depth (updateBuffer r.buffer (r.windowIndex t) t v) } := by
  unfold Resampler.push_sample
  split
  · exact Or.inl rfl
  · split
    · exact Or.inl rfl
    · exact Or.inr rfl

theorem push_sample_drop (r : Resampler) (t : ℚ) (v : Option ℚ)
    (h : t < r.anchor ∨ r.windowIndex t < r.cursor) : r.push_sample t v = r := by
  unfold Resampler.push_sample
  rcases h with h | h
  · rw [if_pos h]
  · by_cases h2 : t < r.anchor
    · rw [if_pos h2]
    · rw [if_neg h2, if_pos h]

theorem push_cursor (r : Resampler) (t : ℚ) (v : Option ℚ) :
    (r.push_sample t v).cursor = r.cursor := by
  rcases push_eq_or r t v with h | h <;> rw [h]

theorem push_period (r : Resampler) (t : ℚ) (v : Option ℚ) :
    (r.push_sample t v).period = r.period := by
  rcases push_eq_or r t v with h | h <;> rw [h]

theorem push_retention (r : Resampler) (t : ℚ) (v : Option ℚ) :
    (r.push_sample t v).retention_depth = r.retention_depth := by
  rcases push_eq_or r t v with h | h <;> rw [h]

theorem windowIndex_push (r : Resampler) (t : ℚ) (v : Option ℚ) (u : ℚ) :
    (r.push_sample t v).windowIndex u = r.windowIndex u := by
  rcases push_eq_or r t v with h | h
  · rw [h]
  · rw [h]
    unfold Resampler.windowIndex
    rfl

theorem resample_state_eq (r : Resampler) (a : ℚ) :
    (r.resample a).2 =
      if r.limitIndex a < r.cursor then r
      else { r with cursor := r.limitIndex a + 1,
                    buffer := r.buffer.filter (fun e => r.limitIndex a < e.1) } := by
  simp only [Resampler.resample]
  by_cases h : r.limitIndex a < r.cursor
  · rw [if_pos h, if_pos h]
  · rw [if_neg h, if_neg h]

theorem resample_out_eq (r : Resampler) (a : ℚ) :
    (r.resample a).1 = (r.drained a).map (fun k => (r.label k, r.aggregateAt k)) := by
  simp only [Resampler.resample]
  by_cases h : r.limitIndex a < r.cursor
  · rw [if_pos h]
  · rw [if_neg h]

theorem resampleState_limitIndex (r : Resampler) (a₁ a₂ : ℚ) :
    ((r.resample a₁).2).limitIndex a₂ = r.limitIndex a₂ := by
  rw [resample_state_eq]
  split <;> rfl

theorem resampleState_retention (r : Resampler) (a : ℚ) :
    ((r.resample a).2).retention_depth = r.retention_depth := by
  rw [resample_state_eq]
  split <;> rfl

theorem drained_eq_nil (r : Resampler) (a : ℚ) (h : r.limitIndex a < r.cursor) :
    r.drained a = [] := by
  unfold Resampler.drained
  rw [if_pos h]

theorem mem_drained (r : Resampler) (a : ℚ) (k : Int) :
    k ∈ r.drained a ↔ r.cursor ≤ k ∧ k ≤ r.limitIndex a := by
  unfold Resampler.drained
  split
  · rename_i h
    simp only [List.not_mem_nil, false_iff]
    omega
  · rename_i h
    constructor
    · intro hk
      obtain ⟨i, hi, hk2⟩ := List.mem_map.mp hk
      rw [List.mem_range] at hi
      have hk3 : r.cursor + (i : Int) = k := hk2
      omega
    · rintro ⟨h1, h2⟩
      refine List.mem_map.mpr ⟨(k - r.cursor).toNat, ?_, ?_⟩
      · rw [List.mem_range]
        omega
      · show r.cursor + ((k - r.cursor).toNat : Int) = k
        omega

theorem drained_pairwise (r : Resampler) (a : ℚ) :
    (r.drained a).Pairwise (fun x y => x < y) := by
  unfold Resampler.drained
  split
  · exact List.Pairwise.nil
  · refine List.Pairwise.map _ ?_ (List.pairwise_lt_range _)
    intro i j hij
    show r.cursor + (i : Int) < r.cursor + (j : Int)
    have h2 : i < j := hij
    omega

theorem cursor_le_applyOp (r : Resampler) (op : Op) :
    r.cursor ≤ (r.applyOp op).cursor := by
  cases op with
  | push t v =>
    show r.cursor ≤ (r.push_sample t v).cursor
    rw [push_cursor]
  | resample a =>
    show r.cursor ≤ ((r.resample a).2).cursor
    rw [resample_state_eq]
    split
    · exact le_refl _
    · rename_i h
      show r.cursor ≤ r.limitIndex a + 1
      omega

theorem cursor_le_applyOps (r : Resampler) (ops : List Op) :
    r.cursor ≤ (r.applyOps ops).cursor := by
  induction ops generalizing r with
  | nil => exact le_refl _
  | cons op t ih =>
    simp only [Resampler.applyOps, List.foldl_cons] at ih ⊢
    exact le_trans (cursor_le_applyOp r op) (ih _)

theorem mem_updateBuffer (l : List (Int × WindowAccumulator)) (k : Int) (t : ℚ)
    (v : Option ℚ) (x : Int × WindowAccumulator) (hx : x ∈ updateBuffer l k t v) :
    x.1 = k ∨ x.1 ∈ l.map Prod.fst := by
  induction l with
  | nil =>
    simp only [updateBuffer, List.mem_singleton] at hx
    subst hx
    exact Or.inl rfl
  | cons e rest ih =>
    obtain ⟨j, a⟩ := e
    simp only [updateBuffer] at hx
    split at hx
    · rcases List.mem_cons.mp hx with rfl | hx2
      · exact Or.inl rfl
      · rcases List.mem_cons.mp hx2 with rfl | hx3
        · exact Or.inr (List.mem_cons_self _ _)
        · exact Or.inr (List.mem_cons_of_mem _ (List.mem_map_of_mem _ hx3))
    · split at hx
      · rename_i hkj
        rcases List.mem_cons.mp hx with rfl | hx2
        · exact Or.inl hkj.symm
        · exact Or.inr (List.mem_cons_of_mem _ (List.mem_map_of_mem _ hx2))
      · rcases List.mem_cons.mp hx with rfl | hx2
        · exact Or.inr (List.mem_cons_self _ _)
        · rcases ih hx2 with h1 | h1
          · exact Or.inl h1
          · exact Or.inr (List.mem_cons_of_mem _ h1)

theorem sorted_updateBuffer (l : List (Int × WindowAccumulator)) (k : Int) (t : ℚ)
    (v : Option ℚ) (hs : l.Pairwise (fun x y => x.1 < y.1)) :
    (updateBuffer l k t v).Pairwise (fun x y => x.1 < y.1) := by
  induction l with
  | nil =>
    simp only [updateBuffer]
    exact List.pairwise_singleton _ _
  | cons e rest ih =>
    obtain ⟨j, a⟩ := e
    rw [List.pairwise_cons] at hs
    obtain ⟨hj, hrest⟩ := hs
    simp only [updateBuffer]
    split
    · rename_i hlt
      rw [List.pairwise_cons]
      refine ⟨?_, List.pairwise_cons.mpr ⟨hj, hrest⟩⟩
      intro b hb
      rcases List.mem_cons.mp hb with rfl | hb2
      · exact hlt
      · exact lt_trans hlt (hj b hb2)
    · split
      · rw [List.pairwise_cons]
        exact ⟨fun b hb => hj b hb, hrest⟩
      · rename_i hnlt hne
        rw [List.pairwise_cons]
        refine ⟨?_, ih hrest⟩
        intro b hb
        rcases mem_updateBuffer rest k t v b hb with h1 | h1
        · show j < b.1
          omega
        · obtain ⟨z, hz, he⟩ := List.mem_map.mp h1
          have := hj z hz
          show j < b.1
          omega

theorem le_maxKey (l : List (Int × WindowAccumulator)) (dflt : Int)
    (x : Int × WindowAccumulator) (hx : x ∈ l) : x.1 ≤ maxKey l dflt := by
  induction hx with
  | head rest =>
    show x.1 ≤ Max.max x.1 (maxKey rest dflt)
    exact le_max_left _ _
  | tail b hm ih =>
    rename_i rest
    calc x.1 ≤ maxKey rest dflt := ih
    _ ≤ Max.max b.1 (maxKey rest dflt) := le_max_right _ _

theorem sorted_bounded_length (hi : Int) (l : List Int)
    (hs : l.Pairwise (fun x y => x < y)) :
    ∀ lo : Int, (∀ x ∈ l, lo ≤ x ∧ x ≤ hi) → l.length ≤ (hi - lo + 1).toNat := by
  induction hs with
  | nil =>
    intro lo _
    simp
  | @cons x t hx ht ih =>
    intro lo hmem
    have h1 := hmem x (List.mem_cons_self x t)
    have h2 : ∀ y ∈ t, x + 1 ≤ y ∧ y ≤ hi := by
      intro y hy
      have h3 : x < y := hx y hy
      exact ⟨by omega, (hmem y (List.mem_cons_of_mem x hy)).2⟩
    have h4 := ih (x + 1) h2
    simp only [List.length_cons]
    omega

theorem sorted_evictOld (d : Nat) (buf : List (Int × WindowAccumulator))
    (hs : buf.Pairwise (fun x y => x.1 < y.1)) :
    (evictOld d buf).Pairwise (fun x y => x.1 < y.1) := by
  unfold evictOld
  split
  · exact hs.filter _
  · exact hs

theorem length_evictOld_le (d : Nat) (buf : List (Int × WindowAccumulator))
    (hs : buf.Pairwise (fun x y => x.1 < y.1)) :
    (evictOld d buf).length ≤ d + 1 := by
  unfold evictOld
  split
  · rename_i hlen
    have hsk : ((buf.filter (fun e => maxKey buf 0 - (d : Int) ≤ e.1)).map
        Prod.fst).Pairwise (fun x y => x < y) := by
      rw [List.pairwise_map]
      exact hs.filter _
    have hmem : ∀ x ∈ (buf.filter (fun e => maxKey buf 0 - (d : Int) ≤ e.1)).map
        Prod.fst, maxKey buf 0 - (d : Int) ≤ x ∧ x ≤ maxKey buf 0 := by
      intro x hx
      obtain ⟨y, hy, rfl⟩ := List.mem_map.mp hx
      have hy1 := List.mem_of_mem_filter hy
      have hy2 := List.of_mem_filter hy
      exact ⟨of_decide_eq_true hy2, le_maxKey buf 0 y hy1⟩
    have hb := sorted_bounded_length (maxKey buf 0) _ hsk (maxKey buf 0 - (d : Int)) hmem
    rw [List.length_map] at hb
    omega
  · rename_i hlen
    omega

/-- The structural invariant of reachable driver states: the buffer is
ordered by strictly increasing window index and holds at most
retention_depth + 1 accumulators (the oldest open window plus at most
retention_depth trailing ones). -/
def Resampler.goodState (r : Resampler) : Prop :=
  r.buffer.Pairwise (fun x y => x.1 < y.1) ∧
  r.buffer.length ≤ r.retention_depth + 1

theorem goodState_push (r : Resampler) (t : ℚ) (v : Option ℚ)
    (h : r.goodState) : (r.push_sample t v).goodState := by
  rcases push_eq_or r t v with he | he
  · rw [he]
    exact h
  · rw [he]
    exact ⟨sorted_evictOld _ _ (sorted_updateBuffer _ _ _ _ h.1),
           length_evictOld_le _ _ (sorted_updateBuffer _ _ _ _ h.1)⟩

theorem goodState_resampleState (r : Resampler) (a : ℚ) (h : r.goodState) :
    ((r.resample a).2).goodState := by
  rw [resample_state_eq]
  split
  · exact h
  · exact ⟨h.1.filter _, le_trans (List.length_filter_le _ _) h.2⟩

theorem goodState_applyOp (r : Resampler) (op : Op) (h : r.goodState) :
    (r.applyOp op).goodState := by
  cases op with
  | push t v => exact goodState_push r t v h
  | resample a => exact goodState_resampleState r a h

theorem goodState_applyOps (r : Resampler) (ops : List Op) (h : r.goodState) :
    (r.applyOps ops).goodState := by
  induction ops generalizing r with
  | nil => exact h
  | cons op rest ih =>
    show ((r.applyOp op).applyOps rest).goodState
    exact ih _ (goodState_applyOp r op h)

theorem goodState_new (p : ℚ) (f : ResamplingFunction) (d : Nat) (a : ℚ)
    (e : EdgePolicy) : (Resampler.new p f d a e).goodState :=
  ⟨List.Pairwise.nil, by simp [Resampler.new]⟩

theorem applyOp_retention (r : Resampler) (op : Op) :
    (r.applyOp op).retention_depth = r.retention_depth := by
  cases op with
  | push t v => exact push_retention r t v
  | resample a => exact resampleState_retention r a

theorem applyOps_retention (r : Resampler) (ops : List Op) :
    (r.applyOps ops).retention_depth = r.retention_depth := by
  induction ops generalizing r with
  | nil => rfl
  | cons op rest ih =>
    show ((r.applyOp op).applyOps rest).retention_depth = r.retention_depth
    rw [ih, applyOp_retention]

theorem lookupAcc_eq_none (l : List (Int × WindowAccumulator)) (k : Int)
    (h : k ∉ l.map Prod.fst) : lookupAcc l k = none := by
  induction l with
  | nil => rfl
  | cons e rest ih =>
    obtain ⟨j, a⟩ := e
    simp only [List.map_cons, List.mem_cons] at h
    push_neg at h
    simp only [lookupAcc]
    rw [if_neg h.1]
    exact ih h.2

theorem aggregateAt_eq_none (r : Resampler) (k : Int)
    (h : k ∉ r.buffer.map Prod.fst) : r.aggregateAt k = none := by
  unfold Resampler.aggregateAt
  rw [lookupAcc_eq_none _ _ h]

theorem mem_keys_push (r : Resampler) (t : ℚ) (v : Option ℚ)
    (x : Int × WindowAccumulator) (hx : x ∈ (r.push_sample t v).buffer) :
    x.1 ∈ r.buffer.map Prod.fst ∨ x.1 = r.windowIndex t := by
  rcases push_eq_or r t v with h | h
  · rw [h] at hx
    exact Or.inl (List.mem_map_of_mem _ hx)
  · rw [h] at hx
    have hx2 : x ∈ updateBuffer r.buffer (r.windowIndex t) t v := by
      revert hx
      show x ∈ evictOld _ _ → _
      unfold evictOld
      split
      · exact fun hx => List.mem_of_mem_filter hx
      · exact fun hx => hx
    rcases mem_updateBuffer _ _ _ _ _ hx2 with h1 | h1
    · exact Or.inr h1
    · exact Or.inl h1

theorem mem_keys_applyPushes (r : Resampler) (l : List (ℚ × Option ℚ))
    (x : Int × WindowAccumulator) (hx : x ∈ (r.applyPushes l).buffer) :
    x.1 ∈ r.buffer.map Prod.fst ∨ ∃ s ∈ l, x.1 = r.windowIndex s.1 := by
  induction l generalizing r with
  | nil => exact Or.inl (List.mem_map_of_mem _ hx)
  | cons s rest ih =>
    have hx2 : x ∈ ((r.push_sample s.1 s.2).applyPushes rest).buffer := hx
    rcases ih (r.push_sample s.1 s.2) hx2 with h | ⟨u, hu, he⟩
    · obtain ⟨y, hy, hyx⟩ := List.mem_map.mp h
      rcases mem_keys_push r s.1 s.2 y hy with h2 | h2
      · exact Or.inl (hyx ▸ h2)
      · refine Or.inr ⟨s, List.mem_cons_self _ _, ?_⟩
        rw [← hyx, h2]
    · refine Or.inr ⟨u, List.mem_cons_of_mem _ hu, ?_⟩
      rw [he, windowIndex_push]

theorem keys_applyPushes_new (p : ℚ) (f : ResamplingFunction) (d : Nat) (a : ℚ)
    (e : EdgePolicy) (samples : List (ℚ × Option ℚ)) (k : Int)
    (hk : k ∈ (resamplerAfter p f d a e samples).buffer.map Prod.fst) :
    ∃ s ∈ samples, k = (Resampler.new p f d a e).windowIndex s.1 := by
  obtain ⟨y, hy, rfl⟩ := List.mem_map.mp hk
  rcases mem_keys_applyPushes _ _ _ hy with h | h
  · simp [Resampler.new] at h
  · exact h

theorem applyPushes_period (r : Resampler) (l : List (ℚ × Option ℚ)) :
    (r.applyPushes l).period = r.period := by
  induction l generalizing r with
  | nil => rfl
  | cons s rest ih =>
    show ((r.push_sample s.1 s.2).applyPushes rest).period = r.period
    rw [ih, push_period]

theorem drained_lt_resample_cursor (r : Resampler) (a : ℚ) (k : Int)
    (hk : k ∈ r.drained a) : k < ((r.resample a).2).cursor := by
  have h := (mem_drained r a k).mp hk
  rw [resample_state_eq]
  split
  · rename_i hL
    omega
  · show k < r.limitIndex a + 1
    omega

/-- C1: for a Resampler with anchor = epoch, period = 5s, last-timestamp
policy and retention_depth = 1, after pushing values 1..10 at timestamps
1s..10s, resample(10s) returns exactly the two windows labeled 5s and 10s
with, per function: Average 3.0 and 8.0, Sum 15.0 and 40.0, Max 5.0 and
10.0, Min 1.0 and 6.0, Last 5.0 and 10.0, Count 5 and 5. -/
theorem c1_scenarioA_all_functions :
    scenarioARun .Average = [(5, some 3), (10, some 8)] ∧
    scenarioARun .Sum = [(5, some 15), (10, some 40)] ∧
    scenarioARun .Max = [(5, some 5), (10, some 10)] ∧
    scenarioARun .Min = [(5, some 1), (10, some 6)] ∧
    scenarioARun .Last = [(5, some 5), (10, some 10)] ∧
    scenarioARun .Count = [(5, some 5), (10, some 5)] := by
  with_unfolding_all decide

/-- C2: for every push sequence with strictly increasing timestamps and
every as_of, resample emits windows in strictly increasing label order, its
output is exactly one point per drained index, the drained indices are
exactly the gap-free range from the pre-call cursor to the computed limit,
and a window covered by the range that received no samples is emitted as
Missing. -/
theorem c2_resample_gapless_ordered_missing
    (p : ℚ) (f : ResamplingFunction) (d : Nat) (a : ℚ) (e : EdgePolicy)
    (samples : List (ℚ × Option ℚ)) (as_of : ℚ) (k : Int)
    (hp : 0 < p)
    (hinc : List.Chain' (fun x y => x < y) (samples.map Prod.fst)) :
    List.Chain' (fun x y => x.1 < y.1)
      (((resamplerAfter p f d a e samples).resample as_of).1) ∧
    ((resamplerAfter p f d a e samples).resample as_of).1
      = ((resamplerAfter p f d a e samples).drained as_of).map
          (fun j => ((resamplerAfter p f d a e samples).label j,
                     (resamplerAfter p f d a e samples).aggregateAt j)) ∧
    (k ∈ (resamplerAfter p f d a e samples).drained as_of ↔
      (resamplerAfter p f d a e samples).cursor ≤ k ∧
        k ≤ (resamplerAfter p f d a e samples).limitIndex as_of) ∧
    ((∀ s ∈ samples, (Resampler.new p f d a e).windowIndex s.1 ≠ k) →
      (resamplerAfter p f d a e samples).aggregateAt k = none ∧
      (k ∈ (resamplerAfter p f d a e samples).drained as_of →
        ((resamplerAfter p f d a e samples).label k, (none : Option ℚ)) ∈
          ((resamplerAfter p f d a e samples).resample as_of).1)) := by
  have hper : (resamplerAfter p f d a e samples).period = p := applyPushes_period _ _
  have hout := resample_out_eq (resamplerAfter p f d a e samples) as_of
  refine ⟨?_, hout, mem_drained _ as_of k, ?_⟩
  · rw [hout]
    refine List.Pairwise.chain' ?_
    refine List.Pairwise.map _ ?_ (drained_pairwise _ as_of)
    intro i j hij
    have h2 : i < j := hij
    show (resamplerAfter p f d a e samples).label i
      < (resamplerAfter p f d a e samples).label j
    unfold Resampler.label
    rw [hper]
    have hc : (i : ℚ) < (j : ℚ) := by exact_mod_cast h2
    have h3 := mul_lt_mul_of_pos_right hc hp
    linarith
  · intro hnos
    have hk : k ∉ (resamplerAfter p f d a e samples).buffer.map Prod.fst := by
      intro hmem
      obtain ⟨s, hs, he⟩ := keys_applyPushes_new p f d a e samples k hmem
      exact hnos s hs he.symm
    have h1 := aggregateAt_eq_none _ k hk
    refine ⟨h1, fun hkd => ?_⟩
    rw [hout]
    refine List.mem_map.mpr ⟨k, hkd, ?_⟩
    show ((resamplerAfter p f d a e samples).label k,
      (resamplerAfter p f d a e samples).aggregateAt k) = _
    rw [h1]

theorem c2_resample_gapless_ordered_missing_witness :
    (resamplerAfter 5 .Average 3 0 .LastTimestamp
        [(1, some 1), (2, some 2), (12, some 3)]).aggregateAt 2 = none ∧
    ((resamplerAfter 5 .Average 3 0 .LastTimestamp
        [(1, some 1), (2, some 2), (12, some 3)]).label 2, (none : Option ℚ)) ∈
      ((resamplerAfter 5 .Average 3 0 .LastTimestamp
        [(1, some 1), (2, some 2), (12, some 3)]).resample 15).1 := by
  have h := c2_resample_gapless_ordered_missing 5 .Average 3 0 .LastTimestamp
    [(1, some 1), (2, some 2), (12, some 3)] 15 2
    (by norm_num) (by norm_num [List.chain'_cons, List.chain'_singleton])
  have h4 := h.2.2.2 (by with_unfolding_all decide)
  exact ⟨h4.1, h4.2 (by with_unfolding_all decide)⟩

/-- C3: calling resample twice with no pushes in between returns an empty
sequence the second time whenever the second call closes no window beyond
the first call's effective limit (its limit index is at most the first
call's limit index): windows are drained, never re-emitted. -/
theorem c3_second_resample_empty (r : Resampler) (a₁ a₂ : ℚ)
    (h : r.limitIndex a₂ ≤ r.limitIndex a₁) :
    (((r.resample a₁).2).resample a₂).1 = [] := by
  have hcur : r.limitIndex a₂ < ((r.resample a₁).2).cursor := by
    rw [resample_state_eq]
    split
    · rename_i h1
      omega
    · show r.limitIndex a₂ < r.limitIndex a₁ + 1
      omega
  rw [resample_out_eq,
      drained_eq_nil _ _ (by rw [resampleState_limitIndex]; exact hcur)]
  rfl

theorem c3_second_resample_empty_witness :
    (scenarioAState .Average).limitIndex 7 ≤ (scenarioAState .Average).limitIndex 10 ∧
    ((((scenarioAState .Average).resample 10).2).resample 7).1 = [] :=
  ⟨by with_unfolding_all decide,
   c3_second_resample_empty (scenarioAState .Average) 10 7
     (by with_unfolding_all decide)⟩

/-- C4: a window whose accumulator recorded zero present samples (all its
samples were Missing) is emitted as Missing under every function other
than Count, i.e. under Average, Sum, Max, Min and Last. -/
theorem c4_all_missing_window_missing (r : Resampler) (k : Int)
    (acc : WindowAccumulator) (hl : lookupAcc r.buffer k = some acc)
    (h0 : acc.count_present = 0) (hf : r.function ≠ .Count) :
    r.aggregateAt k = none := by
  unfold Resampler.aggregateAt
  rw [hl]
  show r.function.compute acc = none
  cases hc : r.function with
  | Average => simp [ResamplingFunction.compute, h0]
  | Sum => simp [ResamplingFunction.compute, h0]
  | Max => simp [ResamplingFunction.compute, h0]
  | Min => simp [ResamplingFunction.compute, h0]
  | Last => simp [ResamplingFunction.compute, h0]
  | Count => exact absurd hc hf

theorem c4_all_missing_window_missing_witness :
    scenarioNoneState.aggregateAt 1 = none ∧
    ((scenarioNoneState.resample 10).1 = [(5, none), (10, none)]) :=
  ⟨c4_all_missing_window_missing scenarioNoneState 1
      ⟨5, 0, 0, none, none, none, none⟩
      (by with_unfolding_all decide) rfl (by with_unfolding_all decide),
   by with_unfolding_all decide⟩

/-- C5: under Average with period 5s and anchor = epoch, pushing values
1..20 at 0s..9.5s under the first-timestamp policy makes resample(10s)
return [(0s, 5.5), (5s, 15.5)], while pushing the same values at
0.5s..10s under the last-timestamp policy makes resample(10s) return
[(5s, 5.5), (10s, 15.5)]: the labels of the windows with the same contents
differ by exactly one period between the two policies. -/
theorem c5_scenarioC_policy_label_shift :
    (((Resampler.bindingNew 5 .Average 1 0 true).applyPushes
        scenarioCFirstSamples).resample 10).1
      = [(0, some (11 / 2)), (5, some (31 / 2))] ∧
    (((Resampler.bindingNew 5 .Average 1 0 false).applyPushes
        scenarioCLastSamples).resample 10).1
      = [(5, some (11 / 2)), (10, some (31 / 2))] ∧
    ((((Resampler.bindingNew 5 .Average 1 0 false).applyPushes
        scenarioCLastSamples).resample 10).1).map Prod.fst
      = ((((Resampler.bindingNew 5 .Average 1 0 true).applyPushes
        scenarioCFirstSamples).resample 10).1).map (fun x => x.1 + 5) := by
  with_unfolding_all decide

/-- C6: push_sample is a total function that never fails; a sample whose
timestamp is before the anchor or whose window index is below the cursor
is silently dropped, leaving the state (and hence every future resample
output) entirely unchanged. -/
theorem c6_push_never_fails_drops_silently (r : Resampler) (t a : ℚ)
    (v : Option ℚ)
    (h : t < r.anchor ∨ r.windowIndex t < r.cursor) :
    r.push_sample t v = r ∧
    ((r.push_sample t v).resample a).1 = (r.resample a).1 := by
  have h1 := push_sample_drop r t v h
  exact ⟨h1, by rw [h1]⟩

theorem c6_push_never_fails_drops_silently_witness :
    (scenarioAState .Average).push_sample (-1) (some 42) = scenarioAState .Average ∧
    (((scenarioAState .Average).push_sample (-1) (some 42)).resample 20).1
      = ((scenarioAState .Average).resample 20).1 :=
  c6_push_never_fails_drops_silently (scenarioAState .Average) (-1) 20 (some 42)
    (Or.inl (by with_unfolding_all decide))

/-- C7: across every interleaving of push_sample and resample, the cursor
never decreases; an index drained by a resample call is strictly below the
new cursor, hence never drained again by any later resample, and a later
sample addressed to it is dropped without changing the state. -/
theorem c7_cursor_monotone_no_reemission
    (r : Resampler) (op : Op) (a₁ a₂ t : ℚ) (v : Option ℚ) (k : Int)
    (ops : List Op)
    (hk : k ∈ r.drained a₁)
    (ht : (((r.resample a₁).2).applyOps ops).windowIndex t = k) :
    r.cursor ≤ (r.applyOp op).cursor ∧
    k ∉ (((r.resample a₁).2).applyOps ops).drained a₂ ∧
    (((r.resample a₁).2).applyOps ops).push_sample t v
      = ((r.resample a₁).2).applyOps ops := by
  have h1 := drained_lt_resample_cursor r a₁ k hk
  have h2 : k < (((r.resample a₁).2).applyOps ops).cursor :=
    lt_of_lt_of_le h1 (cursor_le_applyOps _ ops)
  refine ⟨cursor_le_applyOp r op, ?_, ?_⟩
  · intro hmem
    have h3 := (mem_drained _ _ _).mp hmem
    omega
  · exact push_sample_drop _ t v (Or.inr (by rw [ht]; exact h2))

theorem c7_cursor_monotone_no_reemission_witness :
    (scenarioAState .Average).cursor
      ≤ ((scenarioAState .Average).applyOp (Op.push 3 (some 99))).cursor ∧
    (1 : Int) ∉ ((((scenarioAState .Average).resample 10).2).applyOps []).drained 20 ∧
    ((((scenarioAState .Average).resample 10).2).applyOps []).push_sample 3 (some 99)
      = (((scenarioAState .Average).resample 10).2).applyOps [] :=
  c7_cursor_monotone_no_reemission (scenarioAState .Average) (Op.push 3 (some 99))
    10 20 3 (some 99) 1 []
    (by with_unfolding_all decide) (by with_unfolding_all decide)

/-- C8 counterexample: after the first six pushes of Scenario A (retention
depth 1), two window accumulators are buffered simultaneously, exceeding
retention_depth; the continuation of the scenario (mandated by the tests
in src/tests/test_resampler.py) shows both buffered windows keep their
data, so the bound claimed cannot hold of the engine. -/
theorem c8_at_most_retention_depth_false :
    scenarioAPrefix6.retention_depth = 1 ∧
    scenarioAPrefix6.buffer.length = 2 ∧
    ¬ scenarioAPrefix6.buffer.length ≤ scenarioAPrefix6.retention_depth ∧
    ((scenarioAPrefix6.applyPushes
        ((List.range 4).map (fun i => (((i : ℚ) + 7), some ((i : ℚ) + 7))))).resample 10).1
      = [(5, some 3), (10, some 8)] := by
  with_unfolding_all decide

/-- C8 amended: on every state reachable from construction by any sequence
of push_sample and resample operations, at most retention_depth + 1 window
accumulators (the oldest open window plus at most retention_depth trailing
ones) are buffered simultaneously, independent of how many samples arrive
or how far ahead their timestamps lie. -/
theorem c8_buffer_bounded_retention_depth_plus_one (p : ℚ)
    (f : ResamplingFunction) (d : Nat) (a : ℚ) (e : EdgePolicy)
    (ops : List Op) :
    ((Resampler.new p f d a e).applyOps ops).buffer.length ≤ d + 1 := by
  have h := goodState_applyOps (Resampler.new p f d a e) ops (goodState_new p f d a e)
  have hr := applyOps_retention (Resampler.new p f d a e) ops
  have h2 := h.2
  rw [hr] at h2
  exact h2

/-- C9: the ResamplingFunction enum matches the declared table
{Average=0, Sum=1, Max=2, Min=3, Last=4, Count=5}: the ordinals list to
[0,1,2,3,4,5] in order, the (name, ordinal) pairs list in declared order,
every ordinal 0..5 round-trips through construction with the declared name,
and construction from any out-of-range ordinal fails with a value error. -/
theorem c9_enum_table_roundtrip (n : Nat) (h : 6 ≤ n) :
    ResamplingFunction.values = [0, 1, 2, 3, 4, 5] ∧
    ResamplingFunction.members
      = [("Average", 0), ("Sum", 1), ("Max", 2), ("Min", 3), ("Last", 4), ("Count", 5)] ∧
    ((List.range 6).all roundTripOk = true) ∧
    ResamplingFunction.fromOrdinal n = .error "out of range ordinal" := by
  refine ⟨by decide, by decide, by decide, ?_⟩
  unfold ResamplingFunction.fromOrdinal
  rw [if_neg (by omega), if_neg (by omega), if_neg (by omega),
      if_neg (by omega), if_neg (by omega), if_neg (by omega)]

theorem c9_enum_table_roundtrip_witness :
    ResamplingFunction.fromOrdinal 6 = .error "out of range ordinal" :=
  (c9_enum_table_roundtrip 6 (by decide)).2.2.2

/-- C10: the binding constructor exposes the engine configuration under the
names used by the tests: max_age_in_intervals is the retention depth, start
is the anchor, and the boolean first_timestamp selects the edge policy,
False meaning last-timestamp and True meaning first-timestamp. -/
theorem c10_binding_constructor_surface (p : ℚ) (f : ResamplingFunction)
    (m : Nat) (s : ℚ) (b : Bool) :
    (Resampler.bindingNew p f m s b).retention_depth = m ∧
    (Resampler.bindingNew p f m s b).anchor = s ∧
    (Resampler.bindingNew p f m s b).period = p ∧
    (Resampler.bindingNew p f m s b).function = f ∧
    (Resampler.bindingNew p f m s false).edge_policy = EdgePolicy.LastTimestamp ∧
    (Resampler.bindingNew p f m s true).edge_policy = EdgePolicy.FirstTimestamp ∧
    Resampler.bindingNew p f m s b
      = Resampler.new p f m s
          (if b then EdgePolicy.FirstTimestamp else EdgePolicy.LastTimestamp) := by
  cases b <;> exact ⟨rfl, rfl, rfl, rfl, rfl, rfl, rfl⟩
